import Mathlib

/-
Verification of the AudioVibe audio playback core (AudioEngine + AudioManager,
src-tauri/src/audio/mod.rs and src-tauri/src/audio/manager.rs).

Modelling conventions:
- Instants and durations are rational numbers of seconds (std::time::Instant /
  Duration; Instant subtraction saturates at zero, modelled with max _ 0).
- f32 quantities (positions, volume, speed) are rationals; the cast
  "as u64" of a non-negative float is Int.floor followed by Int.toNat
  (negative values saturate to 0, as the Rust cast does).
- The rodio Sink is reduced to the only observable the engine reads from it:
  emptiness.  Asynchronous sink filling/draining and decoder outcomes enter
  as explicit outcome parameters (LoadOutcome, NativeSeekOutcome,
  FallbackEnv), one per point where the code observes the environment.
- Methods that mutate self and return Result are functions returning the
  post-state paired with a success flag (true = Ok).
-/

namespace AudioVibe

/-- Playback state (audio/mod.rs, enum PlaybackState). -/
inductive PlaybackState where
  | Stopped
  | Playing
  | Paused
deriving DecidableEq, Repr

/-- Metadata for a loaded source (audio/mod.rs, struct AudioInfo). -/
structure AudioInfo where
  title : Option String
  artist : Option String
  album : Option String
  duration : Option Nat
  file_size : Nat
  sample_rate : Option Nat
  channels : Option Nat
  bitrate : Option Nat
deriving DecidableEq, Repr

/-- Engine state (audio/mod.rs, struct AudioEngine).  The sink is reduced to
its emptiness observable; all clock fields follow the source. -/
structure AudioEngine where
  sink_empty : Bool
  current_file : Option String
  current_audio_info : Option AudioInfo
  state : PlaybackState
  volume : ℚ
  speed : ℚ
  start_time : Option ℚ
  pause_time : Option ℚ
  paused_duration : ℚ
  seek_offset : Nat
  last_speed_change : Option ℚ
  speed_adjusted_duration : ℚ
deriving DecidableEq, Repr

/-- AudioEngine::new (audio/mod.rs lines 64-89). -/
def AudioEngine.new : AudioEngine where
  sink_empty := true
  current_file := none
  current_audio_info := none
  state := .Stopped
  volume := 1
  speed := 1
  start_time := none
  pause_time := none
  paused_duration := 0
  seek_offset := 0
  last_speed_change := none
  speed_adjusted_duration := 0

/-- Outcome of AudioEngine::load_file observed from the environment:
File::open failure, Decoder::try_from failure, or the sink never reporting
non-empty within the bounded retry loop; ok is the success path. -/
inductive LoadOutcome where
  | ok
  | openFail
  | decodeFail
  | sinkTimeout
deriving DecidableEq, Repr

/-- AudioEngine::load_file (audio/mod.rs lines 91-217).  The sink is stopped
and drained first (lines 95-112); metadata extraction (line 115) is
best-effort and its result enters as the info parameter; on any failure the
function returns before the state-update block (lines 188-212), so every
field except the drained sink keeps its prior value. -/
def load_file (e : AudioEngine) (path : String) (info : AudioInfo)
    (r : LoadOutcome) : AudioEngine × Bool :=
  let e1 := { e with sink_empty := true }
  match r with
  | .ok =>
    ({ e1 with
        sink_empty := false
        current_file := some path
        current_audio_info := some info
        state := .Stopped
        start_time := none
        pause_time := none
        paused_duration := 0
        seek_offset := 0
        last_speed_change := none
        speed_adjusted_duration := 0 }, true)
  | .openFail => (e1, false)
  | .decodeFail => (e1, false)
  | .sinkTimeout => (e1, false)

/-- AudioEngine::play (audio/mod.rs lines 219-269).  Fails when the sink is
(still) empty after the retry, with no state change; otherwise folds any
pending pause interval into paused_duration, sets start_time if unset and
moves to Playing. -/
def play (e : AudioEngine) (now : ℚ) : AudioEngine × Bool :=
  if e.sink_empty then (e, false)
  else
    let pd :=
      match e.pause_time with
      | some paused_at => e.paused_duration + max (now - paused_at) 0
      | none => e.paused_duration
    let st :=
      match e.start_time with
      | some s => some s
      | none => some now
    ({ e with
        pause_time := none
        paused_duration := pd
        start_time := st
        state := .Playing }, true)

/-- AudioEngine::pause (audio/mod.rs lines 271-283): records pause_time = now
and sets state Paused, unconditionally. -/
def pause (e : AudioEngine) (now : ℚ) : AudioEngine :=
  { e with pause_time := some now, state := .Paused }

/-- AudioEngine::stop (audio/mod.rs lines 285-319): drains the sink, zeroes
the whole synthetic clock and sets state Stopped; it cannot fail. -/
def stop (e : AudioEngine) : AudioEngine :=
  { e with
      sink_empty := true
      start_time := none
      pause_time := none
      paused_duration := 0
      seek_offset := 0
      last_speed_change := none
      speed_adjusted_duration := 0
      state := .Stopped }

/-- Rust f32::clamp for lo ≤ hi (used by set_volume / set_speed). -/
def clamp_value (x lo hi : ℚ) : ℚ := min (max x lo) hi

/-- AudioEngine::set_volume (audio/mod.rs lines 490-499). -/
def set_volume (e : AudioEngine) (volume : ℚ) : AudioEngine :=
  { e with volume := clamp_value volume 0 1 }

/-- AudioEngine::get_volume (audio/mod.rs lines 501-504). -/
def get_volume (e : AudioEngine) : ℚ := e.volume

/-- AudioEngine::set_speed (audio/mod.rs lines 506-515).  Note that
last_speed_change and speed_adjusted_duration are not touched. -/
def set_speed (e : AudioEngine) (speed : ℚ) : AudioEngine :=
  { e with speed := clamp_value speed (1/4) 4 }

/-- AudioEngine::get_speed (audio/mod.rs lines 517-520). -/
def get_speed (e : AudioEngine) : ℚ := e.speed

/-- AudioEngine::get_position (audio/mod.rs lines 522-551): seek_offset plus
the active time (elapsed minus paused_duration, saturating) multiplied by the
current speed, truncated to whole seconds. -/
def get_position (e : AudioEngine) (now : ℚ) : Nat :=
  match e.start_time with
  | some started_at =>
    let elapsed :=
      match e.pause_time with
      | some paused_at => max (paused_at - started_at) 0
      | none => max (now - started_at) 0
    let active_time := max (elapsed - e.paused_duration) 0
    let speed_adjusted_time := (Int.floor (active_time * e.speed)).toNat
    e.seek_offset + speed_adjusted_time
  | none => e.seek_offset

/-- Outcome of Sink::try_seek as observed by AudioEngine::seek. -/
inductive NativeSeekOutcome where
  | ok
  | notSupported
  | otherErr
deriving DecidableEq, Repr

/-- Environment observations made by the fallback seek path: whether
File::open + Decoder::try_from succeed in load_file_with_offset, whether the
time-boxed wait observes a non-empty sink, and whether the re-check just
before resuming still observes a non-empty sink. -/
structure FallbackEnv where
  load_ok : Bool
  sink_filled : Bool
  sink_still_filled : Bool
deriving DecidableEq, Repr

/-- matches!(*state, PlaybackState::Playing) in seek_fallback. -/
def state_is_playing : PlaybackState → Bool
  | .Playing => true
  | _ => false

/-- AudioEngine::load_file_with_offset (audio/mod.rs lines 450-487).  On
open/decode failure nothing is mutated; on success the source is appended and
the clock is rebased to the offset (sink emptiness is observed later, by the
caller's wait loop). -/
def load_file_with_offset (e : AudioEngine) (offset_seconds : Nat) (now : ℚ)
    (load_ok : Bool) : AudioEngine × Bool :=
  if load_ok then
    ({ e with
        seek_offset := offset_seconds
        start_time := some now
        pause_time := none
        paused_duration := 0
        last_speed_change := none
        speed_adjusted_duration := 0 }, true)
  else (e, false)

/-- AudioEngine::seek_fallback (audio/mod.rs lines 371-448): remembers
whether the engine was Playing, stops and drains the sink, reloads with an
offset, waits (time-boxed) for the sink to fill, and resumes when it was
playing; each failure returns the error with whatever mutations had already
happened. -/
def seek_fallback (e : AudioEngine) (position_seconds : ℚ) (now : ℚ)
    (env : FallbackEnv) : AudioEngine × Bool :=
  let position_seconds_u64 := (Int.floor position_seconds).toNat
  match e.current_file with
  | none => (e, false)
  | some _ =>
    let was_playing := state_is_playing e.state
    let e1 := { e with sink_empty := true }
    match load_file_with_offset e1 position_seconds_u64 now env.load_ok with
    | (e2, false) => (e2, false)
    | (e2, true) =>
      if env.sink_filled then
        let e3 := { e2 with sink_empty := false }
        if was_playing then
          if env.sink_still_filled then
            ({ e3 with state := .Playing }, true)
          else
            ({ e3 with sink_empty := true, state := .Stopped }, false)
        else (e3, true)
      else (e2, false)

/-- AudioEngine::seek (audio/mod.rs lines 321-369): clamps the position to
≥ 0, requires a loaded file, tries the native sink seek and on success
rebases the clock (leaving state untouched); otherwise falls back to the
reload-based path. -/
def seek (e : AudioEngine) (position_seconds : ℚ) (now : ℚ)
    (native : NativeSeekOutcome) (env : FallbackEnv) : AudioEngine × Bool :=
  let p := max position_seconds 0
  match e.current_file with
  | none => (e, false)
  | some _ =>
    match native with
    | .ok =>
      ({ e with
          seek_offset := (Int.floor p).toNat
          start_time := some now
          pause_time := none
          paused_duration := 0 }, true)
    | .notSupported => seek_fallback e p now env
    | .otherErr => seek_fallback e p now env

/-- A playable unit (audio/manager.rs, struct Track). -/
structure Track where
  id : String
  file_path : String
  title : Option String
  duration : Option Nat
deriving DecidableEq, Repr

/-- Manager state (audio/manager.rs, struct AudioManager): one engine, the
current-track slot and the FIFO queue (VecDeque, front = head). -/
structure AudioManager where
  engine : AudioEngine
  current_track : Option Track
  queue : List Track
deriving DecidableEq, Repr

/-- AudioManager::new (audio/manager.rs lines 34-44). -/
def AudioManager.new : AudioManager where
  engine := AudioEngine.new
  current_track := none
  queue := []

/-- AudioManager::play_track_immediately (audio/manager.rs lines 47-67):
loads the track into the engine; only if the load succeeds does it set the
current track and clear the queue (the question-mark operator returns the
error first otherwise). -/
def play_track_immediately (m : AudioManager) (track : Track)
    (info : AudioInfo) (r : LoadOutcome) : AudioManager × Bool :=
  match load_file m.engine track.file_path info r with
  | (e, true) => ({ engine := e, current_track := some track, queue := [] }, true)
  | (e, false) => ({ m with engine := e }, false)

/-- AudioManager::add_to_queue (audio/manager.rs lines 91-95). -/
def add_to_queue (m : AudioManager) (track : Track) : AudioManager :=
  { m with queue := m.queue ++ [track] }

/-- AudioManager::play_next (audio/manager.rs lines 108-122): pops the queue
head; Ok(false) when empty, otherwise delegates to play_track_immediately
(Ok(true) on success, the load error propagated otherwise, modelled none). -/
def play_next (m : AudioManager) (info : AudioInfo) (r : LoadOutcome) :
    AudioManager × Option Bool :=
  match m.queue with
  | [] => (m, some false)
  | track :: rest =>
    match play_track_immediately { m with queue := rest } track info r with
    | (m2, true) => (m2, some true)
    | (m2, false) => (m2, none)

/-- A default AudioInfo value, used for concrete scenarios. -/
def info0 : AudioInfo where
  title := none
  artist := none
  album := none
  duration := none
  file_size := 0
  sample_rate := none
  channels := none
  bitrate := none

/-- One engine operation, with the environment observations it makes. -/
inductive EngineOp where
  | loadOp (path : String) (info : AudioInfo) (r : LoadOutcome)
  | playOp
  | pauseOp
  | stopOp
  | seekOp (p : ℚ) (native : NativeSeekOutcome) (env : FallbackEnv)
  | setVolumeOp (v : ℚ)
  | setSpeedOp (s : ℚ)

/-- Whether an operation is a seek. -/
def EngineOp.isSeek : EngineOp → Bool
  | .seekOp _ _ _ => true
  | _ => false

/-- Effect of one engine operation issued at instant now (results of
fallible operations are discarded, as a caller ignoring errors would). -/
def engine_step (e : AudioEngine) (now : ℚ) : EngineOp → AudioEngine
  | .loadOp path info r => (load_file e path info r).1
  | .playOp => (play e now).1
  | .pauseOp => pause e now
  | .stopOp => stop e
  | .seekOp p native env => (seek e p now native env).1
  | .setVolumeOp v => set_volume e v
  | .setSpeedOp s => set_speed e s

/-- Engine states reachable from a fresh engine by operation sequences in
which seek is never issued while the engine is Paused. -/
inductive ReachNoSeekPaused : AudioEngine → Prop where
  | base : ReachNoSeekPaused AudioEngine.new
  | step {e : AudioEngine} (now : ℚ) (op : EngineOp) :
      ReachNoSeekPaused e →
      (op.isSeek = true → e.state ≠ .Paused) →
      ReachNoSeekPaused (engine_step e now op)

/-- The state/pause-time invariant of the synthetic clock. -/
def state_pause_inv (e : AudioEngine) : Prop :=
  (e.state = .Playing → e.pause_time = none) ∧
  (e.state = .Paused → e.pause_time ≠ none)

/-- Operations allowed in a play/pause-only trace. -/
inductive PPOp where
  | playOp
  | pauseOp

/-- Effect of one play/pause operation issued at instant now. -/
def pp_step (e : AudioEngine) (now : ℚ) : PPOp → AudioEngine
  | .playOp => (play e now).1
  | .pauseOp => pause e now

/-- Run a timed play/pause trace, earliest event first. -/
def pp_run (e : AudioEngine) : List (ℚ × PPOp) → AudioEngine
  | [] => e
  | ev :: rest => pp_run (pp_step e ev.1 ev.2) rest

/-- The event times are non-decreasing, start no earlier than t0 and end no
later than t1. -/
def chrono : ℚ → List (ℚ × PPOp) → ℚ → Prop
  | t0, [], t1 => t0 ≤ t1
  | t0, ev :: rest, t1 => t0 ≤ ev.1 ∧ chrono ev.1 rest t1

/-- All instants recorded in the clock lie at or before t, and the
accumulated paused duration is non-negative. -/
def clock_le (e : AudioEngine) (t : ℚ) : Prop :=
  0 ≤ e.paused_duration ∧
  (∀ s, e.start_time = some s → s ≤ t) ∧
  (∀ pa, e.pause_time = some pa → pa ≤ t)

/-- Engine right after a successful load of file f (scenario state). -/
def loaded_engine : AudioEngine := (load_file AudioEngine.new "f" info0 .ok).1

/-- Engine after a successful load followed by play() at instant 0. -/
def playing_engine : AudioEngine := (play loaded_engine 0).1

/-- Scenario track A. -/
def trackA : Track where
  id := "A"
  file_path := "a.mp3"
  title := none
  duration := none

/-- Scenario track B. -/
def trackB : Track where
  id := "B"
  file_path := "b.mp3"
  title := none
  duration := none

/-- Reachable engine state for the C2 counterexample: load, play at 0,
pause at 10, then a successful native seek to 50 issued at 12 while Paused. -/
def c2_cex_engine : AudioEngine :=
  engine_step (engine_step (engine_step (engine_step AudioEngine.new
    0 (.loadOp "f" info0 .ok)) 0 .playOp) 10 .pauseOp)
    12 (.seekOp 50 .ok ⟨true, true, true⟩)

/-- Manager with tracks A then B enqueued on a fresh manager. -/
def c7_manager : AudioManager :=
  add_to_queue (add_to_queue AudioManager.new trackA) trackB

/-- Manager with track B enqueued on a fresh manager. -/
def c4_manager : AudioManager := add_to_queue AudioManager.new trackB

/-- Engine after load, play at 0 and pause at 10 (start of a Paused
interval). -/
def c8_cex_e1 : AudioEngine := pp_run loaded_engine [(0, .playOp), (10, .pauseOp)]

/-- The same engine after a second, redundant pause at 20; the state has
been Paused continuously since instant 10. -/
def c8_cex_e2 : AudioEngine := pp_run c8_cex_e1 [(20, .pauseOp)]

/-- Saturating subtraction distributes over an outer saturation when the
subtrahend is non-negative. -/
theorem max_sub_shift (x pd : ℚ) (hpd : 0 ≤ pd) :
    max (max x 0 - pd) 0 = max (x - pd) 0 := by
  rcases le_total 0 x with hx | hx
  · rw [max_eq_left hx]
  · rw [max_eq_right hx]
    have h1 : x - pd ≤ 0 := by linarith
    have h2 : 0 - pd ≤ 0 := by linarith
    rw [max_eq_right h1, max_eq_right h2]

/-- While pause_time is set, get_position does not depend on the reading
instant. -/
theorem get_position_paused_const (e : AudioEngine) (t t' : ℚ)
    (h : e.pause_time ≠ none) : get_position e t = get_position e t' := by
  rcases hpt : e.pause_time with _ | pa
  · exact absurd hpt h
  · rcases hst : e.start_time with _ | s <;> simp [get_position, hst, hpt]

/-- With the engine state fixed, get_position is monotone in the reading
instant whenever the cached speed is non-negative. -/
theorem get_position_read_mono (e : AudioEngine) (t t' : ℚ)
    (hsp : 0 ≤ e.speed) (ht : t ≤ t') : get_position e t ≤ get_position e t' := by
  rcases hst : e.start_time with _ | s
  · simp [get_position, hst]
  · rcases hpt : e.pause_time with _ | pa
    · simp only [get_position, hst, hpt]
      apply Nat.add_le_add_left
      apply Int.toNat_le_toNat
      apply Int.floor_mono
      apply mul_le_mul_of_nonneg_right _ hsp
      apply max_le_max _ le_rfl
      apply sub_le_sub_right
      exact max_le_max (sub_le_sub_right ht s) le_rfl
    · simp [get_position, hst, hpt]

/-- Reading the position at the very instant the clock was rebased to a
non-negative target p yields the truncation of p. -/
theorem get_position_rebase (e : AudioEngine) (p now : ℚ) (hp : 0 ≤ p)
    (h1 : e.seek_offset = (Int.floor p).toNat)
    (h2 : e.start_time = some now)
    (h3 : e.pause_time = none)
    (h4 : e.paused_duration = 0) :
    ((get_position e now : ℚ) ≤ p ∧ p < (get_position e now : ℚ) + 1) := by
  have hpos : get_position e now = (Int.floor p).toNat := by
    simp [get_position, h1, h2, h3, h4]
  have hfl : 0 ≤ Int.floor p := Int.floor_nonneg.mpr hp
  have hcast : (((Int.floor p).toNat : ℕ) : ℚ) = ((Int.floor p : ℤ) : ℚ) := by
    exact_mod_cast congrArg (fun z => ((z : ℤ) : ℚ)) (Int.toNat_of_nonneg hfl)
  rw [hpos, hcast]
  exact ⟨by exact_mod_cast Int.floor_le p, by exact_mod_cast Int.lt_floor_add_one p⟩

/-- While playing (pause_time unset) with a well-formed clock, waiting long
enough that the new active time at the current speed gains at least one
whole second strictly increases get_position. -/
theorem get_position_strict_mono (e : AudioEngine) (s t d : ℚ)
    (h1 : e.start_time = some s) (h2 : e.pause_time = none)
    (hpd0 : 0 ≤ e.paused_duration) (hpd : e.paused_duration ≤ t - s)
    (hsp : 0 ≤ e.speed) (hd0 : 0 ≤ d) (hd1 : 1 ≤ d * e.speed) :
    get_position e t < get_position e (t + d) := by
  have hts : 0 ≤ t - s := le_trans hpd0 hpd
  have htd : 0 ≤ t + d - s := by linarith
  have hact : 0 ≤ t - s - e.paused_duration := by linarith
  have hact2 : 0 ≤ t + d - s - e.paused_duration := by linarith
  simp only [get_position, h1, h2]
  rw [max_eq_left hts, max_eq_left htd, max_eq_left hact, max_eq_left hact2]
  apply Nat.add_lt_add_left
  have key : (t - s - e.paused_duration) * e.speed + 1 ≤
      (t + d - s - e.paused_duration) * e.speed := by
    have hexp : (t + d - s - e.paused_duration) * e.speed =
        (t - s - e.paused_duration) * e.speed + d * e.speed := by ring
    rw [hexp]; linarith
  have hb : 0 < Int.floor ((t + d - s - e.paused_duration) * e.speed) := by
    have h1q : (1 : ℚ) ≤ (t + d - s - e.paused_duration) * e.speed := by
      have := mul_nonneg hact hsp
      linarith
    exact_mod_cast Int.le_floor.mpr (by exact_mod_cast h1q)
  rw [Int.toNat_lt_toNat hb]
  calc Int.floor ((t - s - e.paused_duration) * e.speed)
      < Int.floor ((t - s - e.paused_duration) * e.speed) + 1 := lt_add_one _
    _ = Int.floor ((t - s - e.paused_duration) * e.speed + 1) :=
        (Int.floor_add_one _).symm
    _ ≤ Int.floor ((t + d - s - e.paused_duration) * e.speed) := Int.floor_mono key

/-- Claim C6: stop() is total and, whatever the prior state and history,
leaves the engine Stopped with the entire synthetic clock zeroed, so that
get_position returns 0 at any subsequent instant. -/
theorem c6_stop_resets_everything (e : AudioEngine) (now : ℚ) :
    (stop e).state = .Stopped ∧ get_position (stop e) now = 0 ∧
    (stop e).start_time = none ∧ (stop e).pause_time = none ∧
    (stop e).paused_duration = 0 ∧ (stop e).seek_offset = 0 ∧
    (stop e).last_speed_change = none ∧ (stop e).speed_adjusted_duration = 0 := by
  simp [stop, get_position]

/-- Claim C9: set_volume clamps its argument to the interval from 0 to 1 and
set_speed clamps to the interval from 1/4 to 4; reading back returns exactly
the clamped value (identity inside the range, the violated bound outside),
out-of-range inputs are never rejected, and both operations are total. -/
theorem c9_volume_speed_clamping (e : AudioEngine) (v s : ℚ) :
    (0 ≤ get_volume (set_volume e v) ∧ get_volume (set_volume e v) ≤ 1) ∧
    (0 ≤ v → v ≤ 1 → get_volume (set_volume e v) = v) ∧
    (v < 0 → get_volume (set_volume e v) = 0) ∧
    (1 < v → get_volume (set_volume e v) = 1) ∧
    get_volume (set_volume e (3/2)) = 1 ∧
    get_volume (set_volume e (-(1/2))) = 0 ∧
    (1/4 ≤ get_speed (set_speed e s) ∧ get_speed (set_speed e s) ≤ 4) ∧
    (1/4 ≤ s → s ≤ 4 → get_speed (set_speed e s) = s) ∧
    (s < 1/4 → get_speed (set_speed e s) = 1/4) ∧
    (4 < s → get_speed (set_speed e s) = 4) := by
  simp only [get_volume, set_volume, get_speed, set_speed, clamp_value]
  refine ⟨⟨le_min (le_max_right v 0) zero_le_one, min_le_right _ _⟩,
    ?_, ?_, ?_, ?_, ?_, ⟨le_min (le_max_right s (1/4)) (by norm_num), min_le_right _ _⟩,
    ?_, ?_, ?_⟩
  · intro h0 h1; rw [max_eq_left h0, min_eq_left h1]
  · intro h; rw [max_eq_right h.le]; exact min_eq_left zero_le_one
  · intro h; exact min_eq_right (le_trans h.le (le_max_left v 0))
  · rw [max_eq_left (by norm_num), min_eq_right (by norm_num)]
  · rw [max_eq_right (by norm_num), min_eq_left zero_le_one]
  · intro h0 h1; rw [max_eq_left h0, min_eq_left h1]
  · intro h; rw [max_eq_right h.le]; exact min_eq_left (by norm_num)
  · intro h; exact min_eq_right (le_trans h.le (le_max_left s (1/4)))

/-- Witness for claim C9 at concrete out-of-range inputs. -/
theorem c9_witness :
    (0 : ℚ) ≤ 2 ∧ (1 : ℚ) < 2 ∧ (4 : ℚ) < 5 ∧
    get_volume (set_volume AudioEngine.new 2) = 1 ∧
    get_speed (set_speed AudioEngine.new 5) = 4 := by
  have h := c9_volume_speed_clamping AudioEngine.new 2 5
  exact ⟨by norm_num, by norm_num, by norm_num,
    h.2.2.2.1 (by norm_num), h.2.2.2.2.2.2.2.2.2 (by norm_num)⟩

/-- Counterexample to claim C4: with track B already queued, a
play_track_immediately whose engine load fails returns early, so the queue
is NOT emptied and the current track is NOT set. -/
theorem c4_counterexample :
    (play_track_immediately c4_manager trackA info0 .openFail).1.queue = [trackB] ∧
    (play_track_immediately c4_manager trackA info0 .openFail).1.queue ≠ [] ∧
    (play_track_immediately c4_manager trackA info0 .openFail).1.current_track
      ≠ some trackA ∧
    (play_track_immediately c4_manager trackA info0 .openFail).2 = false := by
  simp [play_track_immediately, load_file, c4_manager, add_to_queue, AudioManager.new]

/-- Claim C4 as amended: play_track_immediately(X) empties the queue and
makes X current exactly when the engine load succeeds; when the load fails
the call returns the error and leaves the queue and current track unchanged
(only the engine sink has been drained). -/
theorem c4_amended_clear_on_success (m : AudioManager) (track : Track)
    (info : AudioInfo) (r : LoadOutcome) :
    (r = .ok →
      (play_track_immediately m track info r).1.queue = [] ∧
      (play_track_immediately m track info r).1.current_track = some track ∧
      (play_track_immediately m track info r).2 = true) ∧
    (r ≠ .ok →
      (play_track_immediately m track info r).1.queue = m.queue ∧
      (play_track_immediately m track info r).1.current_track = m.current_track ∧
      (play_track_immediately m track info r).2 = false) := by
  cases r <;> simp [play_track_immediately, load_file]

/-- Witness for claim C4: both branches of the amended statement at concrete
inputs. -/
theorem c4_witness :
    ((play_track_immediately c4_manager trackA info0 .ok).1.queue = [] ∧
      (play_track_immediately c4_manager trackA info0 .ok).1.current_track
        = some trackA) ∧
    (play_track_immediately c4_manager trackA info0 .decodeFail).1.queue
      = c4_manager.queue := by
  have hok := (c4_amended_clear_on_success c4_manager trackA info0 .ok).1 rfl
  have hfail := (c4_amended_clear_on_success c4_manager trackA info0
    .decodeFail).2 (by simp)
  exact ⟨⟨hok.1, hok.2.1⟩, hfail.1⟩

/-- Claim C10: a failed load (open failure, decoder failure, or sink fill
timeout) is not atomic: it returns the error having already drained the
sink, while current_file, the cached AudioInfo, the state and the whole
synthetic clock keep their prior values; in particular, if the engine was
Playing, get_position keeps advancing against the old clock. -/
theorem c10_load_failure_not_atomic (e : AudioEngine) (path : String)
    (info : AudioInfo) (r : LoadOutcome) (hr : r ≠ .ok) :
    (load_file e path info r).2 = false ∧
    (load_file e path info r).1 = { e with sink_empty := true } ∧
    (∀ t, get_position (load_file e path info r).1 t = get_position e t) ∧
    (∀ s t d, e.start_time = some s → e.pause_time = none →
      e.state = .Playing → 0 ≤ e.paused_duration → e.paused_duration ≤ t - s →
      0 ≤ e.speed → 0 ≤ d → 1 ≤ d * e.speed →
      get_position (load_file e path info r).1 t <
        get_position (load_file e path info r).1 (t + d)) := by
  have hload : load_file e path info r = ({ e with sink_empty := true }, false) := by
    cases r with
    | ok => exact absurd rfl hr
    | openFail => rfl
    | decodeFail => rfl
    | sinkTimeout => rfl
  have hgp : ∀ u, get_position { e with sink_empty := true } u = get_position e u := by
    intro u; simp [get_position]
  refine ⟨by rw [hload], by rw [hload], ?_, ?_⟩
  · intro t; rw [hload]; exact hgp t
  · intro s t d h1 h2 hstate hpd0 hpd hsp hd0 hd1
    rw [hload]
    simp only [hgp]
    exact get_position_strict_mono e s t d h1 h2 hpd0 hpd hsp hd0 hd1

/-- Witness for claim C10: a decode-failing load on a playing engine keeps
the old clock running. -/
theorem c10_witness :
    LoadOutcome.openFail ≠ LoadOutcome.ok ∧
    (load_file playing_engine "g" info0 .openFail).2 = false ∧
    get_position (load_file playing_engine "g" info0 .openFail).1 50 <
      get_position (load_file playing_engine "g" info0 .openFail).1 (50 + 1) := by
  have h := c10_load_failure_not_atomic playing_engine "g" info0 .openFail (by simp)
  refine ⟨by simp, h.1, ?_⟩
  exact h.2.2.2 0 50 1
    (by norm_num [playing_engine, loaded_engine, play, load_file, AudioEngine.new])
    (by norm_num [playing_engine, loaded_engine, play, load_file, AudioEngine.new])
    (by norm_num [playing_engine, loaded_engine, play, load_file, AudioEngine.new])
    (by norm_num [playing_engine, loaded_engine, play, load_file, AudioEngine.new])
    (by norm_num [playing_engine, loaded_engine, play, load_file, AudioEngine.new])
    (by norm_num [playing_engine, loaded_engine, play, load_file, AudioEngine.new])
    (by norm_num)
    (by norm_num [playing_engine, loaded_engine, play, load_file, AudioEngine.new])

/-- Counterexample to claim C1: after load, play() at 0 and 300 seconds of
active time at speed 1 the position is 300, but 60 seconds after
set_speed(2.0) the position is 720, not approximately 420: the current
speed rescales the whole active interval. -/
theorem c1_counterexample :
    get_position playing_engine 300 = 300 ∧
    get_position (set_speed playing_engine 2) 360 = 720 ∧
    ¬ (get_position (set_speed playing_engine 2) 360 ≤ 480) := by
  norm_num [playing_engine, loaded_engine, get_position, set_speed, clamp_value,
    play, load_file, AudioEngine.new]; decide

/-- Claim C1 as amended: in the speed-change scenario the position after 300
active seconds at speed 1 is 300, but get_position multiplies the entire
active time by the current speed, so after set_speed(2.0) and 60 more
seconds it returns 720 (the whole 360-second interval is retroactively
rescaled); in general a read at instant t returns the truncation of
2 times the whole active time. -/
theorem c1_amended_retroactive_rescaling :
    get_position playing_engine 300 = 300 ∧
    get_position (set_speed playing_engine 2) 360 = 720 ∧
    (∀ t : ℚ, get_position (set_speed playing_engine 2) t
      = (Int.floor (2 * max t 0)).toNat) := by
  refine ⟨?_, ?_, ?_⟩
  · norm_num [playing_engine, loaded_engine, get_position, play, load_file,
      AudioEngine.new]; decide
  · norm_num [playing_engine, loaded_engine, get_position, set_speed,
      clamp_value, play, load_file, AudioEngine.new]; decide
  · intro t
    have hsp : clamp_value 2 4⁻¹ 4 = 2 := by
      rw [clamp_value, max_eq_left (by norm_num), min_eq_left (by norm_num)]
    have hmx : max (max t 0) 0 = max t 0 := by rw [max_assoc, max_self]
    simp [playing_engine, loaded_engine, get_position, set_speed, clamp_value,
      play, load_file, AudioEngine.new, hmx, mul_comm]
    rw [max_eq_left (by norm_num : (4:ℚ)⁻¹ ≤ 2), min_eq_left (by norm_num : (2:ℚ) ≤ 4)]

/-- Claim C3, evaluated at the failing input (code bug): a fallback seek on
a Playing engine whose reload fails surfaces the error, but leaves the
engine Playing with the old clock intact (start_time still set) and the
sink drained, instead of the required Stopped state with a zeroed clock. -/
theorem c3_fallback_failure_state :
    (seek playing_engine 100 5 .notSupported ⟨false, false, false⟩).2 = false ∧
    (seek playing_engine 100 5 .notSupported ⟨false, false, false⟩).1.state
      = .Playing ∧
    (seek playing_engine 100 5 .notSupported ⟨false, false, false⟩).1.start_time
      = some 0 ∧
    (seek playing_engine 100 5 .notSupported ⟨false, false, false⟩).1.sink_empty
      = true := by
  norm_num [seek, seek_fallback, load_file_with_offset, state_is_playing,
    playing_engine, loaded_engine, play, load_file, AudioEngine.new]

/-- Claim C7, evaluated at the failing input (code bug): with A then B
enqueued, the first play_next loads A and returns true but clears the rest
of the queue (play_track_immediately empties it), so the second play_next
returns false and B is never loaded. -/
theorem c7_play_next_clears_rest_of_queue :
    (play_next c7_manager info0 .ok).2 = some true ∧
    (play_next c7_manager info0 .ok).1.current_track = some trackA ∧
    (play_next c7_manager info0 .ok).1.queue = [] ∧
    (play_next (play_next c7_manager info0 .ok).1 info0 .ok).2 = some false := by
  simp [play_next, play_track_immediately, load_file, c7_manager, add_to_queue,
    AudioManager.new, trackA, trackB]

/-- Counterexample to claim C2: load, play at 0, pause at 10, then a
successful native seek at 12 reaches a state that is Paused with
pause_time cleared, so the invariant is not preserved by a native seek
issued while Paused. -/
theorem c2_counterexample :
    c2_cex_engine.state = .Paused ∧ c2_cex_engine.pause_time = none := by
  norm_num [c2_cex_engine, engine_step, load_file, play, pause, seek,
    AudioEngine.new]

/-- The fallback seek preserves the state/pause invariant when the engine is
not Paused at the time of the call. -/
theorem seek_fallback_preserves_inv (e : AudioEngine) (p now : ℚ)
    (env : FallbackEnv) (hinv : state_pause_inv e) (hnp : e.state ≠ .Paused) :
    state_pause_inv (seek_fallback e p now env).1 := by
  rcases hcf : e.current_file with _ | f
  · simpa [seek_fallback, hcf] using hinv
  · rcases env with ⟨lo, sf, ssf⟩
    rcases hinv with ⟨hplay, hpause⟩
    have hst : e.state = .Stopped ∨ e.state = .Playing := by
      cases h : e.state
      · exact Or.inl rfl
      · exact Or.inr rfl
      · exact absurd h hnp
    cases lo <;> cases sf <;> cases ssf <;> rcases hst with h | h <;>
      simp_all [state_pause_inv, seek_fallback, hcf, load_file_with_offset,
        state_is_playing]

/-- A seek issued while the engine is not Paused preserves the state/pause
invariant, on both the native and the fallback path. -/
theorem seek_preserves_inv (e : AudioEngine) (p now : ℚ)
    (native : NativeSeekOutcome) (env : FallbackEnv)
    (hinv : state_pause_inv e) (hnp : e.state ≠ .Paused) :
    state_pause_inv (seek e p now native env).1 := by
  cases native with
  | ok =>
    rcases hcf : e.current_file with _ | f
    · simpa [seek, hcf] using hinv
    · constructor
      · intro _; simp [seek, hcf]
      · intro hpa
        exact absurd (show e.state = .Paused by simpa [seek, hcf] using hpa) hnp
  | notSupported =>
    rcases hcf : e.current_file with _ | f
    · simpa [seek, hcf] using hinv
    · simpa [seek, hcf] using
        seek_fallback_preserves_inv e (max p 0) now env ⟨hinv.1, hinv.2⟩ hnp
  | otherErr =>
    rcases hcf : e.current_file with _ | f
    · simpa [seek, hcf] using hinv
    · simpa [seek, hcf] using
        seek_fallback_preserves_inv e (max p 0) now env ⟨hinv.1, hinv.2⟩ hnp

/-- Claim C2 as amended: the invariant (Playing implies pause_time unset,
Paused implies pause_time set) holds in every state reachable by engine
operations in which seek is never issued while Paused; a successful seek
issued while Paused clears pause_time but leaves the state Paused, breaking
it (see the counterexample). -/
theorem c2_amended_invariant (e : AudioEngine) (h : ReachNoSeekPaused e) :
    state_pause_inv e := by
  induction h with
  | base => simp [state_pause_inv, AudioEngine.new]
  | step now op hre hcond ih =>
    rename_i e
    cases op with
    | loadOp path info r =>
      cases r <;> simp_all [engine_step, load_file, state_pause_inv]
    | playOp =>
      by_cases hse : e.sink_empty
      · simpa [engine_step, play, hse] using ih
      · constructor
        · intro _; simp [engine_step, play, hse]
        · intro hpa; simp [engine_step, play, hse] at hpa
    | pauseOp =>
      constructor
      · intro hpl; simp [engine_step, pause] at hpl
      · intro _; simp [engine_step, pause]
    | stopOp => simp [engine_step, stop, state_pause_inv]
    | seekOp p native env =>
      exact seek_preserves_inv e p now native env ih (hcond rfl)
    | setVolumeOp v => simpa [engine_step, set_volume, state_pause_inv] using ih
    | setSpeedOp s => simpa [engine_step, set_speed, state_pause_inv] using ih

/-- Witness for claim C2: the invariant at a concrete reachable state
(pause issued on a fresh engine). -/
theorem c2_witness : state_pause_inv (engine_step AudioEngine.new 0 .pauseOp) := by
  have h1 : ReachNoSeekPaused (engine_step AudioEngine.new 0 EngineOp.pauseOp) :=
    ReachNoSeekPaused.step 0 .pauseOp ReachNoSeekPaused.base (by simp [EngineOp.isSeek])
  exact c2_amended_invariant _ h1

/-- A play/pause step does not change the cached speed. -/
theorem pp_step_speed (e : AudioEngine) (t : ℚ) (op : PPOp) :
    (pp_step e t op).speed = e.speed := by
  cases op with
  | playOp =>
    by_cases hse : e.sink_empty
    · simp [pp_step, play, hse]
    · simp [pp_step, play, hse]
  | pauseOp => simp [pp_step, pause]

/-- A play/pause trace does not change the cached speed. -/
theorem pp_run_speed (evs : List (ℚ × PPOp)) (e : AudioEngine) :
    (pp_run e evs).speed = e.speed := by
  induction evs generalizing e with
  | nil => rfl
  | cons ev rest ih =>
    rw [show pp_run e (ev :: rest) = pp_run (pp_step e ev.1 ev.2) rest from rfl,
      ih, pp_step_speed]

/-- clock_le is monotone in its time bound. -/
theorem clock_le_mono (e : AudioEngine) (t t' : ℚ) (h : clock_le e t)
    (ht : t ≤ t') : clock_le e t' :=
  ⟨h.1, fun s hs => le_trans (h.2.1 s hs) ht,
    fun pa hpa => le_trans (h.2.2 pa hpa) ht⟩

/-- A play/pause step issued at instant t preserves clock_le at t. -/
theorem pp_step_clock_le (e : AudioEngine) (t : ℚ) (op : PPOp)
    (h : clock_le e t) : clock_le (pp_step e t op) t := by
  obtain ⟨hpd, hst, hpt⟩ := h
  cases op with
  | pauseOp =>
    refine ⟨by simpa [pp_step, pause] using hpd, ?_, ?_⟩
    · intro s hs
      exact hst s (by simpa [pp_step, pause] using hs)
    · intro pa hpa
      simp [pp_step, pause] at hpa
      exact le_of_eq hpa.symm
  | playOp =>
    by_cases hse : e.sink_empty
    · simpa [pp_step, play, hse] using ⟨hpd, hst, hpt⟩
    · refine ⟨?_, ?_, ?_⟩
      · rcases hpt0 : e.pause_time with _ | pa0
        · simpa [pp_step, play, hse, hpt0] using hpd
        · simpa [pp_step, play, hse, hpt0] using
            add_nonneg hpd (le_max_right (t - pa0) 0)
      · intro s hs
        rcases hst0 : e.start_time with _ | s0
        · simp [pp_step, play, hse, hst0] at hs
          exact le_of_eq hs.symm
        · simp [pp_step, play, hse, hst0] at hs
          exact hs ▸ hst s0 hst0
      · intro pa hpa
        simp [pp_step, play, hse] at hpa

/-- A play/pause step issued at instant t does not decrease the position
read at t. -/
theorem pp_step_pos_le (e : AudioEngine) (t : ℚ) (op : PPOp)
    (h : clock_le e t) (hsp : 0 ≤ e.speed) :
    get_position e t ≤ get_position (pp_step e t op) t := by
  obtain ⟨hpd, hst, hpt⟩ := h
  cases op with
  | pauseOp =>
    rcases hst0 : e.start_time with _ | s
    · simp [get_position, pp_step, pause, hst0]
    · rcases hpt0 : e.pause_time with _ | pa
      · simp [get_position, pp_step, pause, hst0, hpt0]
      · have hpa : pa ≤ t := hpt pa hpt0
        simp only [get_position, pp_step, pause, hst0, hpt0]
        apply Nat.add_le_add_left
        apply Int.toNat_le_toNat
        apply Int.floor_mono
        apply mul_le_mul_of_nonneg_right _ hsp
        apply max_le_max _ le_rfl
        apply sub_le_sub_right
        exact max_le_max (sub_le_sub_right hpa s) le_rfl
  | playOp =>
    by_cases hse : e.sink_empty
    · simp [pp_step, play, hse]
    · rcases hpt0 : e.pause_time with _ | pa
      · rcases hst0 : e.start_time with _ | s
        · have hneg : max (0 - e.paused_duration) 0 = 0 := by
            rw [zero_sub, max_eq_right (neg_nonpos.mpr hpd)]
          simp [get_position, pp_step, play, hse, hpt0, hst0, hneg]
        · simp [get_position, pp_step, play, hse, hpt0, hst0]
      · have hpa : pa ≤ t := hpt pa hpt0
        rcases hst0 : e.start_time with _ | s
        · have hpd2 : 0 ≤ e.paused_duration + max (t - pa) 0 :=
            add_nonneg hpd (le_max_right _ 0)
          have hneg : max (0 - (e.paused_duration + max (t - pa) 0)) 0 = 0 := by
            rw [zero_sub, max_eq_right (neg_nonpos.mpr hpd2)]
          simp [get_position, pp_step, play, hse, hpt0, hst0, hneg]
        · have hs : s ≤ t := hst s hst0
          have hmt : max (t - pa) 0 = t - pa := max_eq_left (by linarith)
          have key : max (max (pa - s) 0 - e.paused_duration) 0
              = max (max (t - s) 0 - (e.paused_duration + max (t - pa) 0)) 0 := by
            rw [hmt, max_eq_left (by linarith : (0:ℚ) ≤ t - s),
              max_sub_shift _ _ hpd]
            congr 1
            ring
          have hstep : pp_step e t .playOp =
              { e with
                  pause_time := none
                  paused_duration := e.paused_duration + max (t - pa) 0
                  start_time := some s
                  state := .Playing } := by
            simp [pp_step, play, hse, hpt0, hst0]
          rw [hstep]
          simp only [get_position, hpt0, hst0]
          rw [key]

/-- Unfolding equation for pp_run on a cons cell. -/
theorem pp_run_cons (e : AudioEngine) (ev : ℚ × PPOp) (rest : List (ℚ × PPOp)) :
    pp_run e (ev :: rest) = pp_run (pp_step e ev.1 ev.2) rest := rfl

/-- A chronological play/pause trace preserves clock_le up to its end. -/
theorem pp_run_clock_le (evs : List (ℚ × PPOp)) :
    ∀ e t0 t1, clock_le e t0 → chrono t0 evs t1 → clock_le (pp_run e evs) t1 := by
  induction evs with
  | nil =>
    intro e t0 t1 h hc
    exact clock_le_mono e t0 t1 h hc
  | cons ev rest ih =>
    intro e t0 t1 h hc
    have hc' : t0 ≤ ev.1 ∧ chrono ev.1 rest t1 := hc
    rw [pp_run_cons]
    exact ih _ ev.1 t1
      (pp_step_clock_le _ ev.1 ev.2 (clock_le_mono e t0 ev.1 h hc'.1)) hc'.2

/-- Along a chronological play/pause trace the position never decreases. -/
theorem pp_run_pos_le (evs : List (ℚ × PPOp)) :
    ∀ e t0 t1, clock_le e t0 → 0 ≤ e.speed → chrono t0 evs t1 →
      get_position e t0 ≤ get_position (pp_run e evs) t1 := by
  induction evs with
  | nil =>
    intro e t0 t1 _ hsp hc
    exact get_position_read_mono e t0 t1 hsp hc
  | cons ev rest ih =>
    intro e t0 t1 h hsp hc
    have hc' : t0 ≤ ev.1 ∧ chrono ev.1 rest t1 := hc
    have h1 : clock_le e ev.1 := clock_le_mono e t0 ev.1 h hc'.1
    rw [pp_run_cons]
    calc get_position e t0 ≤ get_position e ev.1 :=
        get_position_read_mono e t0 ev.1 hsp hc'.1
      _ ≤ get_position (pp_step e ev.1 ev.2) ev.1 :=
        pp_step_pos_le e ev.1 ev.2 h1 hsp
      _ ≤ get_position (pp_run (pp_step e ev.1 ev.2) rest) t1 :=
        ih _ ev.1 t1 (pp_step_clock_le e ev.1 ev.2 h1)
          (by rw [pp_step_speed]; exact hsp) hc'.2

/-- Play/pause traces preserve the property that a Paused engine has its
pause_time set. -/
theorem pp_run_paused_pause_time (evs : List (ℚ × PPOp)) :
    ∀ e, (e.state = .Paused → e.pause_time ≠ none) →
      ((pp_run e evs).state = .Paused → (pp_run e evs).pause_time ≠ none) := by
  induction evs with
  | nil =>
    intro e h
    exact h
  | cons ev rest ih =>
    intro e h
    rw [pp_run_cons]
    apply ih
    cases hop : ev.2 with
    | playOp =>
      by_cases hse : e.sink_empty
      · simpa [pp_step, play, hse] using h
      · intro hpa
        simp [pp_step, play, hse] at hpa
    | pauseOp =>
      intro _
      simp [pp_step, pause]

/-- Counterexample to claim C8: after play at 0 and pause at 10 the engine
is Paused and reads 10, but a second pause() at 20 — issued while still
inside the same Paused interval, with the state continuously Paused —
re-stamps pause_time, so a later read in that interval returns 20: the
position is not constant across reads within one Paused interval. -/
theorem c8_counterexample :
    c8_cex_e1.state = .Paused ∧ c8_cex_e2.state = .Paused ∧
    get_position c8_cex_e1 15 = 10 ∧ get_position c8_cex_e2 25 = 20 ∧
    get_position c8_cex_e1 15 ≠ get_position c8_cex_e2 25 := by
  norm_num [c8_cex_e1, c8_cex_e2, pp_run, pp_step, get_position, play, pause,
    loaded_engine, load_file, AudioEngine.new]; decide

/-- Claim C8 as amended: after a successful load and at a fixed non-negative
speed, along any chronological play/pause trace (no seek or stop),
(1) get_position is monotonically non-decreasing across any two reads taken
while Playing, for arbitrary sequences of play and pause calls;
(2) two reads taken while Paused with no operation issued between them are
equal (a redundant pause() between the reads can advance the frozen
position, see the counterexample); and
(3) while the freshly loaded engine is Stopped (clock unset, offset 0) the
position is 0. -/
theorem c8_amended_position_laws :
    (∀ (e0 : AudioEngine) (evs1 evs2 : List (ℚ × PPOp)) (t0 t1 t2 : ℚ),
      clock_le e0 t0 → 0 ≤ e0.speed →
      chrono t0 evs1 t1 → chrono t1 evs2 t2 →
      (pp_run e0 evs1).state = .Playing →
      (pp_run (pp_run e0 evs1) evs2).state = .Playing →
      get_position (pp_run e0 evs1) t1 ≤
        get_position (pp_run (pp_run e0 evs1) evs2) t2) ∧
    (∀ (e0 : AudioEngine) (evs : List (ℚ × PPOp)) (ta tb : ℚ),
      (e0.state = .Paused → e0.pause_time ≠ none) →
      (pp_run e0 evs).state = .Paused →
      get_position (pp_run e0 evs) ta = get_position (pp_run e0 evs) tb) ∧
    (∀ (e0 : AudioEngine) (t : ℚ),
      e0.start_time = none → e0.seek_offset = 0 → get_position e0 t = 0) := by
  refine ⟨?_, ?_, ?_⟩
  · intro e0 evs1 evs2 t0 t1 t2 hcl hsp hc1 hc2 _ _
    exact pp_run_pos_le evs2 (pp_run e0 evs1) t1 t2
      (pp_run_clock_le evs1 e0 t0 t1 hcl hc1)
      (by rw [pp_run_speed]; exact hsp) hc2
  · intro e0 evs ta tb h hpa
    exact get_position_paused_const _ ta tb (pp_run_paused_pause_time evs e0 h hpa)
  · intro e0 t h1 h2
    simp [get_position, h1, h2]

/-- Witness for claim C8: the three amended laws at concrete traces on a
freshly loaded engine. -/
theorem c8_witness :
    get_position (pp_run loaded_engine [(0, .playOp)]) 3 ≤
      get_position (pp_run (pp_run loaded_engine [(0, .playOp)]) []) 5 ∧
    get_position (pp_run loaded_engine [(0, .playOp), (2, .pauseOp)]) 4 =
      get_position (pp_run loaded_engine [(0, .playOp), (2, .pauseOp)]) 9 ∧
    get_position loaded_engine 7 = 0 := by
  have h := c8_amended_position_laws
  refine ⟨?_, ?_, ?_⟩
  · exact h.1 loaded_engine [(0, .playOp)] [] 0 3 5
      (by refine ⟨le_refl 0, ?_, ?_⟩ <;>
        simp [loaded_engine, load_file, AudioEngine.new])
      (by simp [loaded_engine, load_file, AudioEngine.new])
      (by norm_num [chrono])
      (by norm_num [chrono])
      (by simp [pp_run, pp_step, play, loaded_engine, load_file, AudioEngine.new])
      (by simp [pp_run, pp_step, play, loaded_engine, load_file, AudioEngine.new])
  · exact h.2.1 loaded_engine [(0, .playOp), (2, .pauseOp)] 4 9
      (by intro hsg; simp [loaded_engine, load_file, AudioEngine.new] at hsg)
      (by simp [pp_run, pp_step, play, pause, loaded_engine, load_file,
        AudioEngine.new])
  · exact h.2.2 loaded_engine 7
      (by simp [loaded_engine, load_file, AudioEngine.new])
      (by simp [loaded_engine, load_file, AudioEngine.new])

/-- A fallback seek that returns success leaves the position reading at the
same instant within one unit below the non-negative target. -/
theorem seek_fallback_success_read (e : AudioEngine) (p now : ℚ)
    (env : FallbackEnv) (hp : 0 ≤ p)
    (hok : (seek_fallback e p now env).2 = true) :
    ((get_position (seek_fallback e p now env).1 now : ℚ) ≤ p ∧
      p < (get_position (seek_fallback e p now env).1 now : ℚ) + 1) := by
  rcases hcf : e.current_file with _ | f
  · simp [seek_fallback, hcf] at hok
  · rcases env with ⟨lo, sf, ssf⟩
    cases lo
    · simp [seek_fallback, hcf, load_file_with_offset] at hok
    · cases sf
      · simp [seek_fallback, hcf, load_file_with_offset] at hok
      · cases hwp : state_is_playing e.state
        · apply get_position_rebase _ p now hp <;>
            simp [seek_fallback, hcf, load_file_with_offset, hwp]
        · cases ssf
          · simp [seek_fallback, hcf, load_file_with_offset, hwp] at hok
          · apply get_position_rebase _ p now hp <;>
              simp [seek_fallback, hcf, load_file_with_offset, hwp]

/-- Claim C5: for every loaded file and every target p at least 0, a seek(p)
that returns success followed immediately (same instant) by get_position()
returns p within rounding to whole seconds (the truncation of p), on the
native path as well as on every successful fallback path. -/
theorem c5_seek_then_read (e : AudioEngine) (p now : ℚ)
    (native : NativeSeekOutcome) (env : FallbackEnv) (hp : 0 ≤ p)
    (hok : (seek e p now native env).2 = true) :
    ((get_position (seek e p now native env).1 now : ℚ) ≤ p ∧
      p < (get_position (seek e p now native env).1 now : ℚ) + 1) := by
  have hmax : max p 0 = p := max_eq_left hp
  rcases hcf : e.current_file with _ | f
  · simp [seek, hcf] at hok
  · cases native with
    | ok =>
      apply get_position_rebase _ p now hp <;> simp [seek, hcf, hmax]
    | notSupported =>
      have hseq : seek e p now .notSupported env = seek_fallback e p now env := by
        simp [seek, hcf, hmax]
      rw [hseq] at hok ⊢
      exact seek_fallback_success_read e p now env hp hok
    | otherErr =>
      have hseq : seek e p now .otherErr env = seek_fallback e p now env := by
        simp [seek, hcf, hmax]
      rw [hseq] at hok ⊢
      exact seek_fallback_success_read e p now env hp hok

/-- Witness for claim C5: native seek to 7/2 on a loaded engine reads back
its truncation 3. -/
theorem c5_witness :
    (0 : ℚ) ≤ 7/2 ∧
    (seek loaded_engine (7/2) 100 .ok ⟨true, true, true⟩).2 = true ∧
    ((get_position (seek loaded_engine (7/2) 100 .ok ⟨true, true, true⟩).1 100 : ℚ)
      ≤ 7/2 ∧
      7/2 < (get_position
        (seek loaded_engine (7/2) 100 .ok ⟨true, true, true⟩).1 100 : ℚ) + 1) := by
  refine ⟨by norm_num, ?_, ?_⟩
  · simp [seek, loaded_engine, load_file, AudioEngine.new]
  · exact c5_seek_then_read loaded_engine (7/2) 100 .ok ⟨true, true, true⟩
      (by norm_num)
      (by simp [seek, loaded_engine, load_file, AudioEngine.new])

end AudioVibe
